import Mathlib

/-!
Verification of the thoth-adviser pipeline units and CLI workflow boundary:
a shallow embedding of `wraps/sort_justifications.py`,
`boots/fully_specified_environment.py` and `cli.py`, with theorems about
the sort wrap, the boot, and the `provenance` / `advise` /
`dependency-monkey` command error handling and enumeration cap.
-/

namespace Adviser

/-- A justification entry as carried by a resolver state: a dictionary with
an optional `package_name` key and mandatory `type` and `message` keys, plus
an optional justification `link`.  Only `package_name`, `type` and `message`
are read by the sort key in `SortJustificationsWrap.run`. -/
structure JustificationEntry where
  package_name : Option String
  type : String
  message : String
  link : Option String
deriving DecidableEq, Repr

/-- The sort key of `SortJustificationsWrap.run`: the Python key function
`lambda i: (i.get("package_name", ""), i["type"], i["message"])`, compared
as Python compares tuples, i.e. lexicographically. -/
def justificationSortKey (i : JustificationEntry) :
    Lex (String × Lex (String × String)) :=
  toLex (i.package_name.getD (""), toLex (i.type, i.message))

/-- The (total, transitive, non-antisymmetric) order the wrap sorts by. -/
def justificationLe (a b : JustificationEntry) : Prop :=
  justificationSortKey a ≤ justificationSortKey b

instance : DecidableRel justificationLe := fun a b =>
  inferInstanceAs (Decidable (justificationSortKey a ≤ justificationSortKey b))

instance : IsTotal JustificationEntry justificationLe :=
  ⟨fun a b => le_total (justificationSortKey a) (justificationSortKey b)⟩

instance : IsTrans JustificationEntry justificationLe :=
  ⟨fun _ _ _ hab hbc => le_trans hab hbc⟩

/-- Modelled from the spec: the Resolution State of `state.py` (not among the
sources) carries a resolved package mapping, an ordered queue of unresolved
package names, an accumulating score and the justification log.  The score's
numeric representation is immaterial here: the sort wrap treats everything
but `justification` opaquely. -/
structure State where
  resolved : List (String × String)
  unresolved : List String
  score : Int
  justification : List JustificationEntry
deriving DecidableEq, Repr

/-- `SortJustificationsWrap.run`: `state.justification.sort(key=...)`.
Python's `list.sort` is a stable sort by the key, which is exactly
`List.insertionSort` with the total preorder `justificationLe`. -/
def SortJustificationsWrap.run (state : State) : State :=
  { state with justification := state.justification.insertionSort justificationLe }

/-- The unit contract allows a wrap's `run` to raise; this wrap's body
contains no raise, so the embedding always returns normally. -/
def SortJustificationsWrap.runExc (state : State) : Except String State :=
  .ok (SortJustificationsWrap.run state)

/-- A pipeline builder context, as consulted by `should_include`: the kind of
pipeline being assembled and the names of the unit classes already included. -/
structure PipelineBuilderContext where
  kind : String
  included : List String
deriving DecidableEq, Repr

/-- `PipelineBuilderContext.is_included(cls)`. -/
def PipelineBuilderContext.is_included (ctx : PipelineBuilderContext)
    (cls : String) : Bool :=
  ctx.included.contains cls

/-- `PipelineBuilderContext.is_adviser_pipeline()`. -/
def PipelineBuilderContext.is_adviser_pipeline (ctx : PipelineBuilderContext) : Bool :=
  ctx.kind == ("adviser")

/-- `SortJustificationsWrap.should_include`: yields one empty parameter set
when the class is not yet included, nothing otherwise.  The generator is
materialised as the list of yielded parameter dictionaries. -/
def SortJustificationsWrap.should_include (builder_context : PipelineBuilderContext) :
    List (List (String × String)) :=
  if !builder_context.is_included ("SortJustificationsWrap") then [[]] else []

/-- `FullySpecifiedEnvironment.should_include`: yields one empty parameter
set when the pipeline is an adviser pipeline and the class is not yet
included, nothing otherwise. -/
def FullySpecifiedEnvironment.should_include (builder_context : PipelineBuilderContext) :
    List (List (String × String)) :=
  if builder_context.is_adviser_pipeline
      && !builder_context.is_included ("FullySpecifiedEnvironment") then [[]]
  else []

/-- The operating system part of the runtime environment descriptor, as read
by `FullySpecifiedEnvironment.run` for its error message. -/
structure OperatingSystem where
  name : Option String
  version : Option String
deriving DecidableEq, Repr

/-- The runtime environment descriptor.  `is_fully_specified()` lives in the
external thoth-common library, so its verdict is carried as a field that the
boot consults, together with the three fields its message interpolates. -/
structure RuntimeEnvironment where
  operating_system : OperatingSystem
  python_version : Option String
  fully_specified : Bool
deriving DecidableEq, Repr

/-- One entry of `context.stack_info`. -/
structure StackInfoEntry where
  message : String
  type : String
  link : String
deriving DecidableEq, Repr

/-- The part of the boot's pipeline context that
`FullySpecifiedEnvironment.run` touches: the project's runtime environment
and the shared `stack_info` report list. -/
structure BootContext where
  runtime_environment : RuntimeEnvironment
  stack_info : List StackInfoEntry
deriving DecidableEq, Repr

/-- Python `!r` formatting of an optional string: `None` without quotes, a
present value in quotes (code point 39). -/
def pyReprOptStr : Option String → String
  | none => "None"
  | some s => "\x27" ++ s ++ "\x27"

/-- The `NotAcceptable` message built by `FullySpecifiedEnvironment.run`. -/
def fullySpecifiedMsg (env : RuntimeEnvironment) : String :=
  "Software environment supplied is not fully specified, OS name is "
    ++ pyReprOptStr env.operating_system.name
    ++ " in version " ++ pyReprOptStr env.operating_system.version
    ++ " using Python " ++ pyReprOptStr env.python_version

/-- `FullySpecifiedEnvironment.run`: when the runtime environment is not
fully specified, append one `ERROR` entry (message plus the justification
link for `fully_specified_env`, obtained from the external
`get_justification_link`, here a parameter `jl`) to `stack_info` and raise
`NotAcceptable` with the same message; otherwise return with the context
untouched.  The second component is the raised exception's message, `none`
when the boot returns normally. -/
def FullySpecifiedEnvironment.run (jl : String → String) (ctx : BootContext) :
    BootContext × Option String :=
  if ctx.runtime_environment.fully_specified then (ctx, none)
  else
    let msg := fullySpecifiedMsg ctx.runtime_environment
    ({ ctx with
        stack_info := ctx.stack_info ++ [⟨msg, "ERROR", jl ("fully_specified_env")⟩] },
      some msg)

/-- The `ThothAdviserException` hierarchy as far as the CLI discriminates
it: `InternalError`, `NotAcceptable`, and any other subclass carried with
its class name. -/
inductive AdviserExc
  | internalError (msg : String)
  | notAcceptable (msg : String)
  | other (clsName msg : String)
deriving DecidableEq, Repr

/-- `type(exc).__name__`. -/
def AdviserExc.clsName : AdviserExc → String
  | internalError _ => "InternalError"
  | notAcceptable _ => "NotAcceptable"
  | other n _ => n

/-- `str(exc)`. -/
def AdviserExc.msg : AdviserExc → String
  | internalError m => m
  | notAcceptable m => m
  | other _ m => m

/-- `isinstance(exc, InternalError)`. -/
def AdviserExc.isInternal : AdviserExc → Bool
  | internalError _ => true
  | _ => false

/-- One entry of a result envelope's `report` list. -/
structure ReportEntry where
  type : String
  justification : String
deriving DecidableEq, Repr

/-- The `f"{str(exc)} ({type(exc).__name__})"` justification text. -/
def excJustification (exc : AdviserExc) : String :=
  exc.msg ++ " (" ++ exc.clsName ++ ")"

/-- The error/report part of the result envelope of the `provenance` and
`advise` commands. -/
structure CommandResult where
  error : Bool
  report : List ReportEntry
deriving DecidableEq, Repr

/-- The `provenance` command's error handling around its workflow body
(project instantiation plus `check_provenance`, which may raise a
`ThothAdviserException`): an `InternalError` is re-raised, any other
`ThothAdviserException` becomes `error = true` with a single `ERROR` report
entry; a normal body result becomes `error = false` with the body's report.
The returned number is the command's exit code, `int(result.error is True)`. -/
def provenance (body : Except AdviserExc (List ReportEntry)) :
    Except AdviserExc (CommandResult × Nat) :=
  match body with
  | .ok report => .ok ({ error := false, report := report }, 0)
  | .error exc =>
    if exc.isInternal then .error exc
    else .ok ({ error := true, report := [⟨"ERROR", excJustification exc⟩] }, 1)

/-- The output part of the `advise` command's result envelope. -/
structure AdviseResult where
  error : Bool
  report : List ReportEntry
  output_requirements : Option String
  output_requirements_locked : Option String
deriving DecidableEq, Repr

/-- The `advise` command's error handling around its workflow body (project
instantiation plus `project.advise`): same exception policy as
`provenance`; on success a non-empty report additionally copies the
requirements documents (abstracted as the two strings) into the output. -/
def advise (body : Except AdviserExc (List ReportEntry))
    (requirements requirements_locked : String) :
    Except AdviserExc (AdviseResult × Nat) :=
  match body with
  | .ok report =>
    if report.isEmpty then
      .ok ({ error := false, report := [], output_requirements := none,
             output_requirements_locked := none }, 0)
    else
      .ok ({ error := false, report := report,
             output_requirements := some requirements,
             output_requirements_locked := some requirements_locked }, 0)
  | .error exc =>
    if exc.isInternal then .error exc
    else .ok ({ error := true, report := [⟨"ERROR", excJustification exc⟩],
                output_requirements := none,
                output_requirements_locked := none }, 1)

/-- `count is not None and count <= 0`: the invalid-count guard of
`dependency_monkey` (the CLI has already turned the optional string argument
into an optional integer). -/
def countInvalid : Option Int → Bool
  | none => false
  | some n => n ≤ 0

/-- `count is not None and computed >= count`: the break condition at the
bottom of the enumeration loop. -/
def countReached : Option Int → Nat → Bool
  | none, _ => false
  | some n, computed => n ≤ (computed : Int)

/-- `s.startswith(pre)`: character-wise prefix test, the executable model of
the Python string method used on `stack_output`. -/
def strStarts (s pre : String) : Bool :=
  pre.data.isPrefixOf s.data

/-- One iteration's output handling: under `dry_run` the output function is
not called; otherwise its `None` returns are not appended to
`result["output"]`. -/
def dmStep (dry_run : Bool) (output_function : String → Nat → Option String)
    (p : String) (computed : Nat) (output : List String) : List String :=
  if dry_run then output
  else
    match output_function p computed with
    | some entry => output ++ [entry]
    | none => output

/-- The enumeration loop of `dependency_monkey` over the projects yielded by
`DependencyGraph.walk(decision_function)`.  `walk_items` are the accepted
combinations the generator yields, in order; `walk_exc` records that the
generator raises a `SolverException` after its last yield (the exception
surfaces only when the loop asks for the item after the last one, so a
`break` on reaching `count` forestalls it).  Each iteration increments
`computed`, applies the output function unless `dry_run`, and breaks on
reaching `count`.  Returns the final `computed`, the collected output
entries, and whether the `SolverException` was raised. -/
def dmLoop (dry_run : Bool) (output_function : String → Nat → Option String)
    (count : Option Int) (walk_exc : Bool) :
    List String → Nat → List String → Nat × List String × Bool
  | [], computed, output => (computed, output, walk_exc)
  | p :: rest, computed, output =>
    if countReached count (computed + 1) then
      (computed + 1, dmStep dry_run output_function p (computed + 1) output, false)
    else
      dmLoop dry_run output_function count walk_exc rest (computed + 1)
        (dmStep dry_run output_function p (computed + 1) output)

/-- The error/report/output/computed part of `dependency_monkey`'s result
envelope.  `report` is initialised to `[]` and never written by the
command; `computed` stays `None` when the `SolverException` interrupts the
enumeration before `result["computed"] = computed` runs. -/
structure DMResult where
  error : Bool
  report : List ReportEntry
  output : List String
  computed : Option Nat
deriving DecidableEq, Repr

/-- What a `dependency_monkey` invocation returns: either one of the early
validation returns (exit code only, no result envelope was built or
printed), or the result envelope together with the final exit code
`int(result.error is True)`. -/
inductive DMReturn
  | early (code : Nat)
  | finished (result : DMResult) (code : Nat)
deriving DecidableEq, Repr

/-- The result's output list, `[]` for an early return. -/
def DMReturn.outputOf : DMReturn → List String
  | .early _ => []
  | .finished r _ => r.output

/-- The result's `computed` field, `none` for an early return. -/
def DMReturn.computedOf : DMReturn → Option Nat
  | .early _ => none
  | .finished r _ => r.computed

/-- The result's report list, `[]` for an early return. -/
def DMReturn.reportOf : DMReturn → List ReportEntry
  | .early _ => []
  | .finished r _ => r.report

/-- Packaging the loop outcome into the result envelope and exit code: a
raised `SolverException` is caught, sets `error = true` and leaves
`computed` unset; otherwise `error = false` and `computed` is recorded.  No
report entry is appended in either case. -/
def dmFinish : Nat × List String × Bool → DMReturn
  | (computed, output, exc) =>
    if exc then
      .finished { error := true, report := [], output := output, computed := none } 1
    else
      .finished { error := false, report := [], output := output,
                  computed := some computed } 0

/-- `dependency_monkey` from `cli.py` after argument parsing.  In order: the
positive-count guard (return 3); for an `http(s)` stack output, a supplied
context must parse as JSON (`json_loads` models `json.loads`, return 1 on
failure) and the Amun submission wrapper (`amun_inspect`, which returns an
optional inspection id) becomes the output function; a `-` stack output
uses the stdout writer, which always returns `None`; any other stack
output is a filesystem directory, which rejects a supplied context (return
2) and otherwise uses the directory writer (`dir_output`, returning the
written path).  Then the enumeration loop runs and the result envelope is
returned with exit code `int(result.error is True)`. -/
def dependency_monkey (json_loads : String → Option (List (String × String)))
    (amun_inspect : String → Nat → Option String)
    (dir_output : String → Nat → Option String)
    (stack_output : String) (context : Option String) (dry_run : Bool)
    (count : Option Int) (walk_items : List String) (walk_exc : Bool) : DMReturn :=
  if countInvalid count then .early 3
  else if strStarts stack_output ("https://") || strStarts stack_output ("http://") then
    match context with
    | some ctxStr =>
      match json_loads ctxStr with
      | none => .early 1
      | some _ => dmFinish (dmLoop dry_run amun_inspect count walk_exc walk_items 0 [])
    | none => dmFinish (dmLoop dry_run amun_inspect count walk_exc walk_items 0 [])
  else if stack_output = "-" then
    dmFinish (dmLoop dry_run (fun _ _ => none) count walk_exc walk_items 0 [])
  else if context.isSome then .early 2
  else dmFinish (dmLoop dry_run dir_output count walk_exc walk_items 0 [])

/-- The output entries the enumeration loop collects from the yielded
projects when it runs them all: the `k`-th yielded project is passed to the
output function with 1-based counter `k`, and `None` returns are dropped;
under `dry_run` nothing is collected. -/
def dmCollected (dry_run : Bool) (output_function : String → Nat → Option String) :
    List String → Nat → List String
  | [], _ => []
  | p :: rest, k =>
    (if dry_run then [] else (output_function p (k + 1)).toList)
      ++ dmCollected dry_run output_function rest (k + 1)

/-- Claim C1: applying `SortJustificationsWrap.run` twice produces the same
justification ordering as applying it once, and after one application the
justification list is sorted by `(package_name using "" for absent, type,
message)`. -/
theorem sort_justifications_idempotent_and_sorted (s : State) :
    SortJustificationsWrap.run (SortJustificationsWrap.run s) =
      SortJustificationsWrap.run s ∧
    List.Sorted justificationLe (SortJustificationsWrap.run s).justification := by
  have hsorted : List.Sorted justificationLe
      (s.justification.insertionSort justificationLe) :=
    List.sorted_insertionSort justificationLe s.justification
  refine ⟨?_, hsorted⟩
  simp only [SortJustificationsWrap.run, hsorted.insertionSort_eq]

/-- Claim C7: `SortJustificationsWrap.run` never signals (it always returns
normally), the resulting justification list is a permutation of the original
entries, and the state's resolved mapping, unresolved queue and score are
unchanged. -/
theorem sort_justifications_frame (s : State) :
    SortJustificationsWrap.runExc s = .ok (SortJustificationsWrap.run s) ∧
    (SortJustificationsWrap.run s).justification.Perm s.justification ∧
    (SortJustificationsWrap.run s).resolved = s.resolved ∧
    (SortJustificationsWrap.run s).unresolved = s.unresolved ∧
    (SortJustificationsWrap.run s).score = s.score :=
  ⟨rfl, List.perm_insertionSort justificationLe s.justification, rfl, rfl, rfl⟩

/-- Claim C9: `SortJustificationsWrap.should_include` yields exactly one
empty parameter set whenever the class is not already included — regardless
of the pipeline kind — and yields nothing when it is already included; it
never yields more than once. -/
theorem sort_justifications_should_include_spec (ctx : PipelineBuilderContext) :
    (SortJustificationsWrap.should_include ctx = [[]] ↔
      ctx.is_included ("SortJustificationsWrap") = false) ∧
    (SortJustificationsWrap.should_include ctx = [] ↔
      ctx.is_included ("SortJustificationsWrap") = true) ∧
    (SortJustificationsWrap.should_include ctx).length ≤ 1 := by
  cases h : ctx.is_included ("SortJustificationsWrap") <;>
    simp [SortJustificationsWrap.should_include, h]

/-- Claim C8: `FullySpecifiedEnvironment.should_include` yields exactly one
empty parameter set when the context is an adviser pipeline and the class is
not already included, and yields nothing otherwise; it never yields more
than once. -/
theorem fully_specified_should_include_spec (ctx : PipelineBuilderContext) :
    (FullySpecifiedEnvironment.should_include ctx = [[]] ↔
      ctx.is_adviser_pipeline = true ∧
        ctx.is_included ("FullySpecifiedEnvironment") = false) ∧
    (FullySpecifiedEnvironment.should_include ctx = [] ↔
      ¬(ctx.is_adviser_pipeline = true ∧
        ctx.is_included ("FullySpecifiedEnvironment") = false)) ∧
    (FullySpecifiedEnvironment.should_include ctx).length ≤ 1 := by
  cases h1 : ctx.is_adviser_pipeline <;>
    cases h2 : ctx.is_included ("FullySpecifiedEnvironment") <;>
      simp [FullySpecifiedEnvironment.should_include, h1, h2]

/-- Claim C2: `FullySpecifiedEnvironment.run` raises `NotAcceptable` exactly
when the runtime environment is not fully specified; when it raises it has
appended exactly one `ERROR` entry carrying the message and the
justification link to `stack_info` (and changed nothing else), and when the
environment is fully specified it returns with the context unmodified. -/
theorem fully_specified_run_spec (jl : String → String) (ctx : BootContext) :
    (FullySpecifiedEnvironment.run jl ctx = (ctx, none) ↔
      ctx.runtime_environment.fully_specified = true) ∧
    ((FullySpecifiedEnvironment.run jl ctx).2.isSome ↔
      ctx.runtime_environment.fully_specified = false) ∧
    (∀ msg, (FullySpecifiedEnvironment.run jl ctx).2 = some msg →
      msg = fullySpecifiedMsg ctx.runtime_environment ∧
      (FullySpecifiedEnvironment.run jl ctx).1.runtime_environment
        = ctx.runtime_environment ∧
      (FullySpecifiedEnvironment.run jl ctx).1.stack_info
        = ctx.stack_info ++ [⟨msg, "ERROR", jl ("fully_specified_env")⟩]) := by
  cases h : ctx.runtime_environment.fully_specified <;>
    simp [FullySpecifiedEnvironment.run, h]

/-- Claim C5: in `provenance` and `advise`, a raised `InternalError` always
propagates uncaught, while every other `ThothAdviserException` is caught and
becomes `error = true` with a single `ERROR` report entry whose
justification text carries the exception's message and class name. -/
theorem internal_error_propagates (exc : AdviserExc)
    (requirements requirements_locked : String) :
    (exc.isInternal = true →
      provenance (.error exc) = .error exc ∧
      advise (.error exc) requirements requirements_locked = .error exc) ∧
    (exc.isInternal = false →
      provenance (.error exc)
        = .ok ({ error := true,
                 report := [⟨"ERROR", excJustification exc⟩] }, 1) ∧
      advise (.error exc) requirements requirements_locked
        = .ok ({ error := true, report := [⟨"ERROR", excJustification exc⟩],
                 output_requirements := none,
                 output_requirements_locked := none }, 1)) := by
  cases h : exc.isInternal <;> simp [provenance, advise, h]

theorem dmStep_dry (f : String → Nat → Option String) (p : String) (c : Nat)
    (output : List String) : dmStep true f p c output = output := rfl

theorem dmStep_eq (dry : Bool) (f : String → Nat → Option String) (p : String)
    (c : Nat) (output : List String) :
    dmStep dry f p c output = output ++ (if dry then [] else (f p c).toList) := by
  cases dry <;> cases h : f p c <;> simp [dmStep, h]

theorem dmStep_length_le (dry : Bool) (f : String → Nat → Option String)
    (p : String) (c : Nat) (output : List String) :
    (dmStep dry f p c output).length ≤ output.length + 1 := by
  rw [dmStep_eq]
  cases dry <;> cases h : f p c <;> simp

theorem dmLoop_dry_congr (f g : String → Nat → Option String) (cnt : Option Int)
    (exc : Bool) :
    ∀ (items : List String) (computed : Nat) (output : List String),
      dmLoop true f cnt exc items computed output
        = dmLoop true g cnt exc items computed output := by
  intro items
  induction items with
  | nil => intro _ _; rfl
  | cons p rest ih =>
    intro computed output
    simp only [dmLoop, dmStep_dry]
    split
    · rfl
    · exact ih _ _

theorem dmLoop_dry_output (f : String → Nat → Option String) (cnt : Option Int)
    (exc : Bool) :
    ∀ (items : List String) (computed : Nat) (output : List String),
      (dmLoop true f cnt exc items computed output).2.1 = output := by
  intro items
  induction items with
  | nil => intro _ _; rfl
  | cons p rest ih =>
    intro computed output
    simp only [dmLoop, dmStep_dry]
    split
    · rfl
    · exact ih _ _

theorem dmLoop_none_eq (dry : Bool) (f : String → Nat → Option String) (exc : Bool) :
    ∀ (items : List String) (computed : Nat) (output : List String),
      dmLoop dry f none exc items computed output
        = (computed + items.length, output ++ dmCollected dry f items computed, exc) := by
  intro items
  induction items with
  | nil => intro computed output; simp [dmLoop, dmCollected]
  | cons p rest ih =>
    intro computed output
    have hc : countReached none (computed + 1) = false := rfl
    simp only [dmLoop, hc, Bool.false_eq_true, if_false, ih, dmStep_eq, dmCollected]
    simp only [Prod.mk.injEq]
    refine ⟨by simp only [List.length_cons]; omega, by simp [List.append_assoc], trivial⟩

theorem dmLoop_computed_le (dry : Bool) (f : String → Nat → Option String)
    (exc : Bool) (n : Int) :
    ∀ (items : List String) (computed : Nat) (output : List String),
      (computed : Int) < n →
      ((dmLoop dry f (some n) exc items computed output).1 : Int) ≤ n := by
  intro items
  induction items with
  | nil => intro computed output h; simpa [dmLoop] using le_of_lt h
  | cons p rest ih =>
    intro computed output h
    simp only [dmLoop]
    split
    · show ((computed + 1 : Nat) : Int) ≤ n
      push_cast
      omega
    · rename_i hc
      simp only [countReached, decide_eq_true_eq] at hc
      exact ih _ _ (by push_cast at hc ⊢; omega)

theorem dmLoop_output_le (dry : Bool) (f : String → Nat → Option String)
    (cnt : Option Int) (exc : Bool) :
    ∀ (items : List String) (computed : Nat) (output : List String),
      (dmLoop dry f cnt exc items computed output).2.1.length + computed
        ≤ output.length + (dmLoop dry f cnt exc items computed output).1 := by
  intro items
  induction items with
  | nil => intro computed output; simp [dmLoop]
  | cons p rest ih =>
    intro computed output
    simp only [dmLoop]
    split
    · have h := dmStep_length_le dry f p (computed + 1) output
      show (dmStep dry f p (computed + 1) output).length + computed
        ≤ output.length + (computed + 1)
      omega
    · have h1 := ih (computed + 1) (dmStep dry f p (computed + 1) output)
      have h2 := dmStep_length_le dry f p (computed + 1) output
      omega

theorem dmLoop_reach (dry : Bool) (f : String → Nat → Option String)
    (exc : Bool) (n : Int) :
    ∀ (items : List String) (computed : Nat) (output : List String),
      (computed : Int) < n → n ≤ (computed : Int) + items.length →
      (dmLoop dry f (some n) exc items computed output).1 = n.toNat ∧
      (dmLoop dry f (some n) exc items computed output).2.2 = false := by
  intro items
  induction items with
  | nil =>
    intro computed output h1 h2
    simp only [List.length_nil] at h2
    exact absurd h2 (by omega)
  | cons p rest ih =>
    intro computed output h1 h2
    simp only [dmLoop]
    split
    · rename_i hc
      simp only [countReached, decide_eq_true_eq] at hc
      constructor
      · show computed + 1 = n.toNat
        omega
      · rfl
    · rename_i hc
      simp only [countReached, decide_eq_true_eq] at hc
      refine ih _ _ (by omega) ?_
      simp only [List.length_cons] at h2
      push_cast at h2 ⊢
      omega

theorem dmLoop_short (dry : Bool) (f : String → Nat → Option String)
    (exc : Bool) (n : Int) :
    ∀ (items : List String) (computed : Nat) (output : List String),
      (computed : Int) + items.length < n →
      dmLoop dry f (some n) exc items computed output
        = (computed + items.length, output ++ dmCollected dry f items computed, exc) := by
  intro items
  induction items with
  | nil => intro computed output _; simp [dmLoop, dmCollected]
  | cons p rest ih =>
    intro computed output h
    simp only [List.length_cons] at h
    have hc : countReached (some n) (computed + 1) = false := by
      simp only [countReached, decide_eq_false_iff_not]
      push_cast at h ⊢
      omega
    rw [dmLoop, hc]
    simp only [Bool.false_eq_true, if_false]
    rw [ih _ _ (by push_cast at h ⊢; omega)]
    simp only [dmStep_eq, dmCollected, Prod.mk.injEq]
    refine ⟨by simp only [List.length_cons]; omega, by simp [List.append_assoc], trivial⟩

theorem dmFinish_outputOf (t : Nat × List String × Bool) :
    (dmFinish t).outputOf = t.2.1 := by
  obtain ⟨c, o, e⟩ := t
  cases e <;> rfl

theorem dmFinish_computedOf (t : Nat × List String × Bool) :
    (dmFinish t).computedOf = if t.2.2 then none else some t.1 := by
  obtain ⟨c, o, e⟩ := t
  cases e <;> rfl

theorem dmFinish_reportOf (t : Nat × List String × Bool) :
    (dmFinish t).reportOf = [] := by
  obtain ⟨c, o, e⟩ := t
  cases e <;> rfl

theorem dmFinish_code (t : Nat × List String × Bool) (r : DMResult) (c : Nat)
    (h : dmFinish t = .finished r c) : c = if r.error = true then 1 else 0 := by
  obtain ⟨cp, o, e⟩ := t
  cases e <;> simp only [dmFinish, if_true, if_false, Bool.false_eq_true,
      DMReturn.finished.injEq] at h <;> rcases h with ⟨h1, h2⟩ <;> subst h2 <;>
    simp [← h1]

theorem dependency_monkey_cases (js : String → Option (List (String × String)))
    (amun dir : String → Nat → Option String) (so : String) (ctx : Option String)
    (dry : Bool) (count : Option Int) (items : List String) (exc : Bool) :
    dependency_monkey js amun dir so ctx dry count items exc = .early 3 ∨
    dependency_monkey js amun dir so ctx dry count items exc = .early 1 ∨
    dependency_monkey js amun dir so ctx dry count items exc = .early 2 ∨
    (countInvalid count = false ∧
      ∃ f, (f = amun ∨ f = dir ∨ f = (fun _ _ => none)) ∧
        dependency_monkey js amun dir so ctx dry count items exc
          = dmFinish (dmLoop dry f count exc items 0 [])) := by
  by_cases h1 : countInvalid count = true
  · left
    simp [dependency_monkey, h1]
  · rw [Bool.not_eq_true] at h1
    by_cases h2 : (strStarts so ("https://") || strStarts so ("http://")) = true
    · cases ctx with
      | none =>
        right; right; right
        exact ⟨h1, amun, Or.inl rfl, by simp [dependency_monkey, h1, h2]⟩
      | some s =>
        cases hj : js s with
        | none =>
          right; left
          simp [dependency_monkey, h1, h2, hj]
        | some v =>
          right; right; right
          exact ⟨h1, amun, Or.inl rfl, by simp [dependency_monkey, h1, h2, hj]⟩
    · rw [Bool.not_eq_true] at h2
      by_cases h3 : so = "-"
      · right; right; right
        subst h3
        exact ⟨h1, (fun _ _ => none), Or.inr (Or.inr rfl),
          by simp [dependency_monkey, h1, h2]⟩
      · by_cases h4 : ctx.isSome = true
        · right; right; left
          simp [dependency_monkey, h1, h2, h3, h4]
        · rw [Bool.not_eq_true] at h4
          right; right; right
          exact ⟨h1, dir, Or.inr (Or.inl rfl),
            by simp [dependency_monkey, h1, h2, h3, h4]⟩

theorem dependency_monkey_dry_congr (js : String → Option (List (String × String)))
    (amunA dirA amunB dirB : String → Nat → Option String) (so : String)
    (ctx : Option String) (count : Option Int) (items : List String) (exc : Bool) :
    dependency_monkey js amunA dirA so ctx true count items exc
      = dependency_monkey js amunB dirB so ctx true count items exc := by
  by_cases h1 : countInvalid count = true
  · simp [dependency_monkey, h1]
  · rw [Bool.not_eq_true] at h1
    by_cases h2 : (strStarts so ("https://") || strStarts so ("http://")) = true
    · cases ctx with
      | none =>
        simp only [dependency_monkey, h1, h2, Bool.false_eq_true, if_false, if_true]
        exact congrArg dmFinish (dmLoop_dry_congr amunA amunB count exc items 0 [])
      | some s =>
        cases hj : js s with
        | none => simp [dependency_monkey, h1, h2, hj]
        | some v =>
          simp only [dependency_monkey, h1, h2, Bool.false_eq_true, if_false, if_true, hj]
          exact congrArg dmFinish (dmLoop_dry_congr amunA amunB count exc items 0 [])
    · rw [Bool.not_eq_true] at h2
      by_cases h3 : so = "-"
      · subst h3
        simp [dependency_monkey, h1, h2]
      · by_cases h4 : ctx.isSome = true
        · simp [dependency_monkey, h1, h2, h3, h4]
        · rw [Bool.not_eq_true] at h4
          simp only [dependency_monkey, h1, h2, h3, h4, Bool.false_eq_true, if_false]
          exact congrArg dmFinish (dmLoop_dry_congr dirA dirB count exc items 0 [])

/-- Claim C4 (amended): `dependency_monkey` returns 3 for a non-positive
count, 1 for an `http(s)` stack output whose supplied context does not
parse as JSON, and 2 for a context combined with a filesystem output
directory — each as an early return, before any stack is generated and
before the result envelope exists (so these carry no `result.error`) — and
on the processing path the exit code is 1 exactly when `result.error` is
true and 0 otherwise. -/
theorem dependency_monkey_exit_codes (js : String → Option (List (String × String)))
    (amun dir : String → Nat → Option String) (so : String) (ctx : Option String)
    (dry : Bool) (count : Option Int) (items : List String) (exc : Bool) :
    (∀ n, count = some n → n ≤ 0 →
      dependency_monkey js amun dir so ctx dry count items exc = .early 3) ∧
    (∀ s, countInvalid count = false →
      (strStarts so ("https://") || strStarts so ("http://")) = true →
      ctx = some s → js s = none →
      dependency_monkey js amun dir so ctx dry count items exc = .early 1) ∧
    (countInvalid count = false →
      (strStarts so ("https://") || strStarts so ("http://")) = false →
      ¬ so = "-" → ctx.isSome = true →
      dependency_monkey js amun dir so ctx dry count items exc = .early 2) ∧
    (∀ r c, dependency_monkey js amun dir so ctx dry count items exc
        = .finished r c → c = if r.error = true then 1 else 0) := by
  refine ⟨?_, ?_, ?_, ?_⟩
  · intro n hn hle
    have h1 : countInvalid count = true := by
      subst hn; simpa [countInvalid] using hle
    simp [dependency_monkey, h1]
  · intro s h1 h2 hctx hj
    subst hctx
    simp [dependency_monkey, h1, h2, hj]
  · intro h1 h2 h3 h4
    simp [dependency_monkey, h1, h2, h3, h4]
  · intro r c hr
    rcases dependency_monkey_cases js amun dir so ctx dry count items exc with
      h|h|h|⟨-, f, -, h⟩
    · rw [h] at hr; exact absurd hr (by simp)
    · rw [h] at hr; exact absurd hr (by simp)
    · rw [h] at hr; exact absurd hr (by simp)
    · rw [h] at hr; exact dmFinish_code _ r c hr

/-- Claim C4, counterexample to the claim as stated: with `count = 0` the
command returns the nonzero exit code 3 as an early return, with no result
envelope — in particular there is no `result.error == true` coinciding with
it. -/
theorem dependency_monkey_exit3_counterexample :
    dependency_monkey (fun _ => none) (fun _ _ => none) (fun _ _ => none)
        ("-") none false (some 0) [] false = .early 3 ∧
    ¬ ∃ r, dependency_monkey (fun _ => none) (fun _ _ => none) (fun _ _ => none)
        ("-") none false (some 0) [] false = .finished r 3 := by
  refine ⟨rfl, ?_⟩
  rintro ⟨r, hr⟩
  rw [show dependency_monkey (fun _ => none) (fun _ _ => none) (fun _ _ => none)
      ("-") none false (some 0) [] false = .early 3 from rfl] at hr
  exact absurd hr (by simp)

/-- Claim C6: with a cap `count = n ≥ 1`, at most `n` combinations are
computed and emitted (`result["output"]` has at most `n` entries, and
`result["computed"]`, when set, is at most `n`); when the walk has at least
`n` combinations to yield, the enumeration stops at exactly `n` accepted
combinations regardless of how much of the space remains, and no error is
reported. -/
theorem dependency_monkey_count_cap (js : String → Option (List (String × String)))
    (amun dir : String → Nat → Option String) (so : String) (ctx : Option String)
    (dry : Bool) (n : Int) (items : List String) (exc : Bool) (hn : 1 ≤ n) :
    (dependency_monkey js amun dir so ctx dry (some n) items exc).outputOf.length
      ≤ n.toNat ∧
    (∀ m, (dependency_monkey js amun dir so ctx dry (some n) items exc).computedOf
        = some m → m ≤ n.toNat) ∧
    (∀ r c, dependency_monkey js amun dir so ctx dry (some n) items exc
        = .finished r c → n.toNat ≤ items.length →
      r.computed = some n.toNat ∧ r.error = false) := by
  rcases dependency_monkey_cases js amun dir so ctx dry (some n) items exc with
    h|h|h|⟨-, f, -, h⟩
  · exact ⟨by rw [h]; simp [DMReturn.outputOf],
      by rw [h]; simp [DMReturn.computedOf],
      fun r c hr => absurd (h ▸ hr) (by simp)⟩
  · exact ⟨by rw [h]; simp [DMReturn.outputOf],
      by rw [h]; simp [DMReturn.computedOf],
      fun r c hr => absurd (h ▸ hr) (by simp)⟩
  · exact ⟨by rw [h]; simp [DMReturn.outputOf],
      by rw [h]; simp [DMReturn.computedOf],
      fun r c hr => absurd (h ▸ hr) (by simp)⟩
  · have hcle : ((dmLoop dry f (some n) exc items 0 []).1 : Int) ≤ n :=
      dmLoop_computed_le dry f exc n items 0 [] (by omega)
    have hole := dmLoop_output_le dry f (some n) exc items 0 []
    refine ⟨?_, ?_, ?_⟩
    · rw [h, dmFinish_outputOf]
      simp only [List.length_nil, Nat.zero_add, Nat.add_zero] at hole
      omega
    · intro m hm
      rw [h, dmFinish_computedOf] at hm
      by_cases he : (dmLoop dry f (some n) exc items 0 []).2.2 = true
      · rw [if_pos he] at hm
        exact absurd hm (by simp)
      · rw [if_neg he] at hm
        injection hm with hm
        omega
    · intro r c hr hlen
      have hre := dmLoop_reach dry f exc n items 0 [] (by omega) (by omega)
      rw [h] at hr
      rcases ht : dmLoop dry f (some n) exc items 0 [] with ⟨c0, o0, e0⟩
      rw [ht] at hre hr
      obtain ⟨h1', h2'⟩ := hre
      dsimp only at h1' h2'
      subst h2'
      simp only [dmFinish, Bool.false_eq_true, if_false,
        DMReturn.finished.injEq] at hr
      rcases hr with ⟨hrec, -⟩
      constructor
      · rw [← hrec, h1']
      · rw [← hrec]

/-- Claim C6, witness at a concrete input: cap 1 over a two-element space. -/
theorem dependency_monkey_count_cap_witness :
    (dependency_monkey (fun _ => none) (fun _ _ => none) (fun p _ => some p)
        ("out") none false (some 1) ["a", "b"] false).outputOf.length
      ≤ (1 : Int).toNat ∧
    (∀ m, (dependency_monkey (fun _ => none) (fun _ _ => none) (fun p _ => some p)
        ("out") none false (some 1) ["a", "b"] false).computedOf
        = some m → m ≤ (1 : Int).toNat) ∧
    (∀ r c, dependency_monkey (fun _ => none) (fun _ _ => none) (fun p _ => some p)
        ("out") none false (some 1) ["a", "b"] false
        = .finished r c → (1 : Int).toNat ≤ (["a", "b"] : List String).length →
      r.computed = some (1 : Int).toNat ∧ r.error = false) :=
  dependency_monkey_count_cap (fun _ => none) (fun _ _ => none) (fun p _ => some p)
    ("out") none false 1 ["a", "b"] false (by decide)

/-- Claim C10: under `dry_run` the output functions are never consulted (the
outcome does not depend on them), `result["output"]` stays empty, and —
when the walk does not raise — `result["computed"]` still counts every
accepted combination, subject to the `count` cap. -/
theorem dependency_monkey_dry_run_spec (js : String → Option (List (String × String)))
    (amunA dirA amunB dirB : String → Nat → Option String) (so : String)
    (ctx : Option String) (count : Option Int) (items : List String) (exc : Bool) :
    dependency_monkey js amunA dirA so ctx true count items exc
      = dependency_monkey js amunB dirB so ctx true count items exc ∧
    (dependency_monkey js amunA dirA so ctx true count items exc).outputOf = [] ∧
    (∀ r c, dependency_monkey js amunA dirA so ctx true count items exc
        = .finished r c → exc = false →
      r.computed = some (match count with
        | none => items.length
        | some n => min n.toNat items.length)) := by
  refine ⟨dependency_monkey_dry_congr js amunA dirA amunB dirB so ctx count items exc,
    ?_, ?_⟩
  · rcases dependency_monkey_cases js amunA dirA so ctx true count items exc with
      h|h|h|⟨-, f, -, h⟩
    · rw [h]; rfl
    · rw [h]; rfl
    · rw [h]; rfl
    · rw [h, dmFinish_outputOf]
      exact dmLoop_dry_output f count exc items 0 []
  · intro r c hr hexc
    subst hexc
    rcases dependency_monkey_cases js amunA dirA so ctx true count items false with
      h|h|h|⟨hcv, f, -, h⟩
    · rw [h] at hr; exact absurd hr (by simp)
    · rw [h] at hr; exact absurd hr (by simp)
    · rw [h] at hr; exact absurd hr (by simp)
    · rw [h] at hr
      cases count with
      | none =>
        rw [dmLoop_none_eq] at hr
        simp only [dmFinish, Bool.false_eq_true, if_false,
          DMReturn.finished.injEq] at hr
        rcases hr with ⟨hrec, -⟩
        rw [← hrec]
        show some (0 + items.length) = some items.length
        rw [Nat.zero_add]
      | some n =>
        have hn : 1 ≤ n := by
          simp only [countInvalid, decide_eq_false_iff_not] at hcv
          omega
        by_cases hle : n.toNat ≤ items.length
        · have hre := dmLoop_reach true f false n items 0 [] (by omega) (by omega)
          rcases ht : dmLoop true f (some n) false items 0 [] with ⟨c0, o0, e0⟩
          rw [ht] at hre hr
          obtain ⟨h1', h2'⟩ := hre
          dsimp only at h1' h2'
          subst h2'
          simp only [dmFinish, Bool.false_eq_true, if_false,
            DMReturn.finished.injEq] at hr
          rcases hr with ⟨hrec, -⟩
          rw [← hrec, h1']
          show some n.toNat = some (min n.toNat items.length)
          rw [Nat.min_eq_left hle]
        · push_neg at hle
          have hsh := dmLoop_short true f false n items 0 [] (by omega)
          rw [hsh] at hr
          simp only [dmFinish, Bool.false_eq_true, if_false,
            DMReturn.finished.injEq] at hr
          rcases hr with ⟨hrec, -⟩
          rw [← hrec]
          show some (0 + items.length) = some (min n.toNat items.length)
          rw [Nat.min_eq_right (le_of_lt hle), Nat.zero_add]

/-- Claim C3 (amended): a `SolverException` raised by the walk (after all
its yields, with no cap in force) is caught inside `dependency_monkey`:
`result.error` becomes true and the exit code is 1, the output entries
already collected are retained, `result["computed"]` is left unset — but no
report entry is added (`result["report"]` stays empty; the exception is
only logged, its class name and message never reach the result). -/
theorem dependency_monkey_solver_exception (js : String → Option (List (String × String)))
    (amun dir : String → Nat → Option String) (so : String) (ctx : Option String)
    (dry : Bool) (items : List String) :
    (∀ r c, dependency_monkey js amun dir so ctx dry none items true
        = .finished r c →
      r.error = true ∧ c = 1 ∧ r.report = [] ∧ r.computed = none) ∧
    ((strStarts so ("https://") || strStarts so ("http://")) = false →
      ¬ so = "-" → ctx = none →
      dependency_monkey js amun dir so ctx dry none items true
        = .finished { error := true, report := [],
                      output := dmCollected dry dir items 0,
                      computed := none } 1) := by
  constructor
  · intro r c hr
    rcases dependency_monkey_cases js amun dir so ctx dry none items true with
      h|h|h|⟨-, f, -, h⟩
    · rw [h] at hr; exact absurd hr (by simp)
    · rw [h] at hr; exact absurd hr (by simp)
    · rw [h] at hr; exact absurd hr (by simp)
    · rw [h, dmLoop_none_eq] at hr
      simp only [dmFinish, if_true, DMReturn.finished.injEq] at hr
      rcases hr with ⟨hrec, hc⟩
      refine ⟨by rw [← hrec], hc.symm, by rw [← hrec], by rw [← hrec]⟩
  · intro h2 h3 hctx
    subst hctx
    simp only [dependency_monkey]
    rw [if_neg (by simp [countInvalid]), if_neg (by simp [h2])]
    rw [if_neg h3, if_neg (by simp)]
    rw [dmLoop_none_eq]
    simp [dmFinish]

/-- Claim C3, counterexample to the claim as stated: a concrete run in
which the walk yields one project and then raises; the caught exception
leaves `result["report"]` empty — no reported entry carries the exception's
class name and message — while the already collected output entry is
retained. -/
theorem dependency_monkey_solver_exc_counterexample :
    dependency_monkey (fun _ => none) (fun _ _ => none) (fun p _ => some p)
        ("out") none false none ["a"] true
      = .finished { error := true, report := [], output := ["a"],
                    computed := none } 1 := by
  rfl

end Adviser
